import Mathlib

/-!
Shallow embedding of the execution core of `tortoise-orm`
(`src/tortoise/backends/mysql/client.py`,
`src/tortoise/backends/base/executor.py`,
`src/tortoise/backends/mysql/executor.py`), together with proofs of the
behavioural properties claimed for it.

The async code is embedded by making every effect explicit: a wrapped
execution primitive becomes a script of outcomes (what each attempted call
would return or raise), the wrappers become pure functions from scripts to
results plus an observable event trace, and mutable state (the transaction
scope, the insert-plan cache, instance attributes) is threaded explicitly.
-/

set_option autoImplicit false

namespace Tortoise

/-! ## Exceptions

Driver-level (pymysql / builtin) exceptions and the tortoise taxonomy
exceptions (`tortoise.exceptions`).  `retry_connection` and
`translate_exceptions` dispatch on these classes.
-/

/-- The driver-level exception classes the mysql client code distinguishes:
builtin `RuntimeError` and the `pymysql.err` hierarchy; `other` stands for
any exception class not named in either wrapper. -/
inductive DriverExc where
  | runtimeError
  | operationalError
  | programmingError
  | dataError
  | internalError
  | notSupportedError
  | interfaceError
  | integrityError
  | databaseError
  | other
  deriving DecidableEq, Repr

/-- Payload of a taxonomy exception: either a wrapped driver exception
(`OperationalError(exc)`) or a plain message string. -/
inductive ErrCtx where
  | driver (e : DriverExc)
  | message (s : String)
  deriving DecidableEq, Repr

/-- An exception as observed by callers of the client: either a raw driver
exception or one of the tortoise taxonomy exceptions
(`OperationalError`, `IntegrityError`, `TransactionManagementError`,
`DBConnectionError`). -/
inductive Exc where
  | py (e : DriverExc)
  | operationalError (ctx : ErrCtx)
  | integrityError (ctx : ErrCtx)
  | transactionManagementError (msg : String)
  | dbConnectionError (msg : String)
  deriving DecidableEq, Repr

/-! ## `retry_connection` (mysql/client.py lines 27-53)

The decorator catches `RuntimeError`, `pymysql.err.OperationalError`,
`pymysql.err.InternalError` and `pymysql.err.InterfaceError` from the first
call, closes the connection, attempts one `create_connection(with_db=True)`
(any exception from the reconnect is caught and only logged), and then calls
the function once more with no surrounding handler.
-/

/-- The exception classes caught by the `except` clause of `retry_connection`:
`RuntimeError, pymysql.err.OperationalError, pymysql.err.InternalError,
pymysql.err.InterfaceError`. -/
def is_retry_exc : Exc → Bool
  | .py .runtimeError => true
  | .py .operationalError => true
  | .py .internalError => true
  | .py .interfaceError => true
  | _ => false

/-- Script of outcomes for one invocation of a wrapped execution primitive:
what the wrapped function returns/raises on its first call, what
`create_connection(with_db=True)` would do if attempted, and what the
wrapped function returns/raises if called a second time. -/
structure CallScript (α : Type) where
  first : Except Exc α
  reconnect : Except Exc Unit
  second : Except Exc α

/-- Observable events of one pass through the body of `retry_connection`. -/
inductive RCEvent where
  | funcCall
  | lockAcquire
  | closeConn
  | createConn (with_db : Bool)
  | lockRelease
  deriving DecidableEq, Repr

/-- `retry_connection(func)` as a function from the outcome script to the
result the caller of the wrapped primitive observes, paired with the event
trace.  Mirrors mysql/client.py lines 29-51: try the call; on a caught
connection-level exception acquire the lock, `_close()`, attempt
`create_connection(with_db=True)` with every exception suppressed
(`except Exception: logging.info(...)`), release the lock, and return
`await func(self, *args)` unguarded. -/
def retry_connection {α : Type} (s : CallScript α) :
    Except Exc α × List RCEvent :=
  match s.first with
  | .ok v => (.ok v, [.funcCall])
  | .error e =>
    if is_retry_exc e then
      (s.second,
        [.funcCall, .lockAcquire, .closeConn, .createConn true,
         .lockRelease, .funcCall])
    else
      (.error e, [.funcCall])

/-! ## `translate_exceptions` (mysql/client.py lines 56-72)

Catches `pymysql.err.{OperationalError, ProgrammingError, DataError,
InternalError, NotSupportedError}` and re-raises `OperationalError(exc)`;
catches `pymysql.err.IntegrityError` and re-raises `IntegrityError(exc)`;
anything else passes through.
-/

/-- Whether a driver exception is in the first `except` tuple of
`translate_exceptions`. -/
def is_translate_operational : DriverExc → Bool
  | .operationalError => true
  | .programmingError => true
  | .dataError => true
  | .internalError => true
  | .notSupportedError => true
  | _ => false

/-- `translate_exceptions(func)` applied to an outcome of the wrapped call. -/
def translate_exceptions {α : Type} (r : Except Exc α) : Except Exc α :=
  match r with
  | .ok v => .ok v
  | .error (.py e) =>
    if is_translate_operational e then
      .error (.operationalError (.driver e))
    else if e = .integrityError then
      .error (.integrityError (.driver e))
    else
      .error (.py e)
  | .error e => .error e

/-- The full wrapper stack on each execution primitive:
`@translate_exceptions` over `@retry_connection` over the raw body
(mysql/client.py lines 153-178), so the translation sees the retried
outcome. -/
def wrapped_primitive {α : Type} (s : CallScript α) :
    Except Exc α × List RCEvent :=
  let r := retry_connection s
  (translate_exceptions r.fst, r.snd)

/-! ## `TransactionWrapper` (mysql/client.py lines 181-210)

The scope holds a `_finalized` flag and `_old_context_value`.  `commit` and
`rollback` first check the flag, set it, issue the database statement over
the shared connection, and restore `current_transaction_map[connection_name]`
to the recorded value.  The database statement is itself an awaited driver
call that may raise; its outcome is passed in explicitly.
-/

/-- Statements issued over the shared physical connection by a transaction
scope (`connection.begin/commit/rollback`). -/
inductive DbStmt where
  | beginStmt
  | commitStmt
  | rollbackStmt
  deriving DecidableEq, Repr

/-- The mutable fields of one `TransactionWrapper` instance that
`commit`/`rollback` touch. -/
structure TxScope where
  finalized : Bool
  old_context_value : Option Nat
  deriving DecidableEq, Repr

/-- One transaction scope together with the parts of the world it mutates:
the scope itself, the `current_transaction_map[connection_name]` context
value (transaction objects are modelled by `Nat` tokens), and the list of
statements issued so far over the shared connection. -/
structure TxWorld where
  scope : TxScope
  current_context : Option Nat
  db_stmts : List DbStmt
  deriving DecidableEq, Repr

/-- `TransactionWrapper.start` (lines 192-196), with the reconnect wrapper
stripped to its success path: `await self._connection.begin()`, record the
previous context value, install this scope (token `self_token`) as current. -/
def TxWorld.start (w : TxWorld) (self_token : Nat) : TxWorld :=
  { scope := { finalized := w.scope.finalized,
               old_context_value := w.current_context },
    current_context := some self_token,
    db_stmts := w.db_stmts ++ [.beginStmt] }

/-- `TransactionWrapper.commit` (lines 198-203).  `db` is the outcome of
`await self._connection.commit()`.  The statement is recorded as issued even
when the driver call raises; the context restore only happens after a
successful driver call. -/
def TxWorld.commit (w : TxWorld) (db : Except Exc Unit) :
    Except Exc Unit × TxWorld :=
  if w.scope.finalized then
    (.error (.transactionManagementError "Transaction already finalised"), w)
  else
    let w1 : TxWorld :=
      { scope := { finalized := true,
                   old_context_value := w.scope.old_context_value },
        current_context := w.current_context,
        db_stmts := w.db_stmts ++ [.commitStmt] }
    match db with
    | .error e => (.error e, w1)
    | .ok _ => (.ok (), { w1 with current_context := w.scope.old_context_value })

/-- `TransactionWrapper.rollback` (lines 205-210), symmetric to `commit`. -/
def TxWorld.rollback (w : TxWorld) (db : Except Exc Unit) :
    Except Exc Unit × TxWorld :=
  if w.scope.finalized then
    (.error (.transactionManagementError "Transaction already finalised"), w)
  else
    let w1 : TxWorld :=
      { scope := { finalized := true,
                   old_context_value := w.scope.old_context_value },
        current_context := w.current_context,
        db_stmts := w.db_stmts ++ [.rollbackStmt] }
    match db with
    | .error e => (.error e, w1)
    | .ok _ => (.ok (), { w1 with current_context := w.scope.old_context_value })

/-- A call to finalize a scope: which method is invoked and what the
underlying driver call would return. -/
inductive TxOp where
  | commitOp (db : Except Exc Unit)
  | rollbackOp (db : Except Exc Unit)
  deriving Repr

/-- Run one finalization call on the world. -/
def TxWorld.runOp (w : TxWorld) (op : TxOp) : Except Exc Unit × TxWorld :=
  match op with
  | .commitOp db => w.commit db
  | .rollbackOp db => w.rollback db

/-- Run a sequence of commit/rollback calls, collecting the outcome of
each call. -/
def TxWorld.runOps : TxWorld → List TxOp → List (Except Exc Unit) × TxWorld
  | w, [] => ([], w)
  | w, op :: rest =>
    let r := w.runOp op
    let rs := r.snd.runOps rest
    (r.fst :: rs.fst, rs.snd)

/-- Number of successful outcomes in a list of results. -/
def countOk (rs : List (Except Exc Unit)) : Nat :=
  (rs.filter (fun r => match r with | .ok _ => true | .error _ => false)).length

/-! ## Insert-plan cache (base/executor.py lines 9, 39-46, 68-79 and
mysql/executor.py lines 58-63) -/

/-- The slice of a field descriptor the insert path consults. -/
structure FieldInfo where
  generated : Bool
  deriving DecidableEq, Repr

/-- The slice of `model._meta` the executor reads: the physical table name,
the ordered `fields_db_projection` mapping (logical field name to physical
column), the `fields_map` (logical field name to descriptor), and the set
`fetch_fields` of declared relation field names.  Keys of the two mappings
are unique (they model Python dicts). -/
structure ModelMeta where
  table : String
  fields_db_projection : List (String × String)
  fields_map : List (String × FieldInfo)
  fetch_fields : List String
  deriving DecidableEq, Repr

/-- Python `dict.get(k, d)` over an association list. -/
def dict_get {κ β : Type} [DecidableEq κ] : List (κ × β) → κ → β → β
  | [], _, d => d
  | (k2, v) :: rest, k, d => if k2 = k then v else dict_get rest k d

/-- `BaseExecutor._prepare_insert_columns` (lines 39-46): walk the keys of
`fields_db_projection` in order, keep those whose field descriptor is not
`generated`, and return the kept logical names paired with their physical
columns. -/
def _prepare_insert_columns (meta : ModelMeta) : List String × List String :=
  let regular := meta.fields_db_projection.filter
    (fun p => !(dict_get meta.fields_map p.1 { generated := false }).generated)
  (regular.map (fun p => p.1), regular.map (fun p => p.2))

/-- `MySQLExecutor._prepare_insert_statement` (mysql/executor.py lines
58-63): the pypika-rendered `INSERT INTO ... (cols) VALUES (%s, ...)` text.
Its exact shape matters only in that it is a deterministic function of the
table name and column list. -/
def _prepare_insert_statement (meta : ModelMeta) (columns : List String) :
    String :=
  "INSERT INTO `" ++ meta.table ++ "` ("
    ++ String.intercalate "," (columns.map (fun c => "`" ++ c ++ "`"))
    ++ ") VALUES ("
    ++ String.intercalate "," (columns.map (fun _ => "%s"))
    ++ ")"

/-- The process-wide `INSERT_CACHE` dict (base/executor.py line 9), keyed by
`"{connection_name}:{table}"`. -/
abbrev InsertCache := List (String × (List String × List String × String))

/-- The cache key built at base/executor.py line 69. -/
def insert_cache_key (connection_name : String) (meta : ModelMeta) : String :=
  connection_name ++ ":" ++ meta.table

/-- What one `execute_insert` call (lines 68-79) computes before executing:
the updated cache, whether this call performed a statement build (the
`key not in INSERT_CACHE` branch), and the plan it will use. -/
structure InsertPlanResult where
  cache : InsertCache
  built : Bool
  regular_columns : List String
  columns : List String
  query : String
  deriving DecidableEq, Repr

/-- The cache-consulting half of `BaseExecutor.execute_insert` (lines
68-75): on a miss build the columns and statement and store them; on a hit
reuse the stored triple unchanged. -/
def execute_insert_plan (connection_name : String) (meta : ModelMeta)
    (cache : InsertCache) : InsertPlanResult :=
  let key := insert_cache_key connection_name meta
  match cache.lookup key with
  | some (rc, cols, q) =>
    { cache := cache, built := false, regular_columns := rc,
      columns := cols, query := q }
  | none =>
    let p := _prepare_insert_columns meta
    let q := _prepare_insert_statement meta p.2
    { cache := cache ++ [(key, (p.1, p.2, q))], built := true,
      regular_columns := p.1, columns := p.2, query := q }

/-- A run of `n` consecutive `execute_insert` calls for the same
(connection, table), threading the cache; returns the final cache, the
total number of statement builds performed, and the statement text each
call executed. -/
def insert_run (connection_name : String) (meta : ModelMeta) :
    Nat → InsertCache → InsertCache × Nat × List String
  | 0, c => (c, 0, [])
  | n + 1, c =>
    let r := execute_insert_plan connection_name meta c
    let rest := insert_run connection_name meta n r.cache
    (rest.1, (if r.built then 1 else 0) + rest.2.1, r.query :: rest.2.2)

/-! ## Reverse-relation prefetch (base/executor.py lines 100-123)

`_prefetch_reverse_relation` collects the instance ids into a set, issues
one `related_query.filter(<relation_field>__in=ids)` call, groups the
returned rows into a dict keyed by their foreign-key value (appending in
row order), and sets the relation container of each instance to its group
(`.get(instance.id, [])`).  The related query is the external collaborator;
its contract is that the filter returns the rows of the related table whose
foreign-key column value lies in the given set, in table order.
-/

/-- A fetched related row as the reverse prefetch sees it: `rel` is
`getattr(entry, relation_field)` (the foreign key back to the parent) and
`val` is the rest of the row payload. -/
structure ChildRow where
  rel : Int
  val : String
  deriving DecidableEq, Repr

/-- A parent instance: its primary key and its relation container, `none`
until `_set_result_for_query` has run. -/
structure ParentInst where
  id : Int
  children : Option (List ChildRow)
  deriving DecidableEq, Repr

/-- The dict update performed per fetched row (lines 115-119): append the
row to the list stored at its key, creating the entry if absent. -/
def add_to_group : List (Int × List ChildRow) → ChildRow →
    List (Int × List ChildRow)
  | [], e => [(e.rel, [e])]
  | (k, g) :: rest, e =>
    if k = e.rel then (k, g ++ [e]) :: rest
    else (k, g) :: add_to_group rest e

/-- Build `related_object_map` from the fetched rows (lines 113-119). -/
def related_object_map (entries : List ChildRow) : List (Int × List ChildRow) :=
  entries.foldl add_to_group []

/-- `_prefetch_reverse_relation` over an explicit related-table state `db`:
returns the updated instance list and the number of related-query fetches
issued. -/
def _prefetch_reverse_relation (db : List ChildRow)
    (instance_list : List ParentInst) : List ParentInst × Nat :=
  let instance_ids := instance_list.map (fun i => i.id)
  let related_object_list := db.filter (fun c => instance_ids.contains c.rel)
  let m := related_object_map related_object_list
  (instance_list.map (fun p => { p with children := some (dict_get m p.id []) }),
   1)

/-! ## Direct-relation prefetch (base/executor.py lines 194-209)

`_prefetch_direct_relation` walks the instances, adding
`getattr(instance, f"{field}_id")` to the fetch set when that value is
truthy (Python `if getattr(...):`), and only when the set is non-empty
issues one `related_query.filter(id__in=...)` call and assigns every
relation attribute of every instance from the id-keyed result map.
-/

/-- Python truthiness of an `Optional[int]` attribute value: `None` and `0`
are falsy. -/
def py_truthy : Option Int → Bool
  | none => false
  | some v => v != 0

/-- An instance on the owning side of a direct relation: `fk` is the stored
`<field>_id` attribute value, `rel` the relation attribute — `none` when no
`setattr` has run, `some r` once it was assigned value `r` (related objects
are identified by their id, so `some none` means assigned `None`). -/
structure DirectInst where
  fk : Option Int
  rel : Option (Option Int)
  deriving DecidableEq, Repr

/-- The `related_objects_for_fetch` set (lines 197-201), as the deduplicated
list of truthy foreign-key values in instance order. -/
def related_objects_for_fetch (instance_list : List DirectInst) : List Int :=
  ((instance_list.filterMap (fun i => i.fk)).filter (fun v => v != 0)).dedup

/-- `_prefetch_direct_relation` over an explicit related-table state `db`
(the ids of the rows of the related table, assumed unique): returns the updated
instance list and the number of related-query fetches issued. -/
def _prefetch_direct_relation (db : List Int)
    (instance_list : List DirectInst) : List DirectInst × Nat :=
  let fetch := related_objects_for_fetch instance_list
  if fetch.isEmpty then
    (instance_list, 0)
  else
    let related_object_list := db.filter (fun i => fetch.contains i)
    let map_get : Option Int → Option Int := fun fk =>
      match fk with
      | none => none
      | some v => if related_object_list.contains v then some v else none
    (instance_list.map (fun i => { i with rel := some (map_get i.fk) }), 1)

/-! ## Prefetch-map construction and execution
(base/executor.py lines 211-253)

`fetch_for_list` rebuilds `self.prefetch_map` from the dotted relation
paths, validating the first segment of each path against
`model._meta.fetch_fields` and merging suffixes per first segment, then
calls `_execute_prefetch_queries`.  The per-relation work
(`_do_prefetch`) dispatches on the runtime relation kind and is passed in
here as a function, mirroring that dynamic dispatch; `RelatedQuery` models
the external query object `_make_prefetch_queries` builds.
-/

/-- Character-level splitter on the two-character separator `__`,
scanning left to right over non-overlapping occurrences, with Python
`str.split` semantics (the empty string yields one empty segment). -/
def split_path_chars : List Char → List (List Char)
  | [] => [[]]
  | '_' :: '_' :: rest => [] :: split_path_chars rest
  | c :: rest =>
    match split_path_chars rest with
    | [] => [[c]]
    | g :: gs => (c :: g) :: gs

/-- `relation.split("__")` (line 241). -/
def split_path (s : String) : List String :=
  (split_path_chars s.data).map (fun cs => String.mk cs)

/-- `"__".join(parts)` (line 249). -/
def join_path (parts : List String) : String :=
  String.intercalate "__" parts

/-- The prefetch map: first-level relation field name to its set of
forwarded paths, the set being a deduplicated list in insertion order. -/
abbrev PrefetchMap := List (String × List String)

/-- Line 247-248: `if first_level_field not in self.prefetch_map.keys():
self.prefetch_map[first_level_field] = set()` — the dict is unchanged when
the key is present and gains a trailing `(k, ∅)` entry when absent. -/
def prefetch_map_insert : PrefetchMap → String → PrefetchMap
  | [], k => [(k, [])]
  | (k2, s) :: rest, k =>
    if k2 = k then (k2, s) :: rest
    else (k2, s) :: prefetch_map_insert rest k

/-- Lines 250-251: `self.prefetch_map[first_level_field].add(
forwarded_prefetch)` — a set add, so a no-op on duplicates. -/
def prefetch_set_add : PrefetchMap → String → String → PrefetchMap
  | [], _, _ => []
  | (k2, s) :: rest, k, v =>
    if k2 = k then (k2, if s.contains v then s else s ++ [v]) :: rest
    else (k2, s) :: prefetch_set_add rest k v

/-- The validation/merging loop of `fetch_for_list` (lines 240-251),
processing the dotted paths in order and threading the map. -/
def build_prefetch_map (fetch_fields : List String) (table : String) :
    List String → PrefetchMap → Except Exc PrefetchMap
  | [], m => .ok m
  | rel :: rest, m =>
    let relation_split := split_path rel
    let first_level_field := relation_split.headD ""
    if fetch_fields.contains first_level_field then
      let m1 := prefetch_map_insert m first_level_field
      let forwarded := join_path relation_split.tail
      let m2 :=
        if forwarded ≠ "" then prefetch_set_add m1 first_level_field forwarded
        else m1
      build_prefetch_map fetch_fields table rest m2
    else
      .error (.operationalError (.message
        ("relation " ++ first_level_field ++ " for " ++ table
          ++ " not found")))

/-- The external related-query object a prefetch entry is executed against:
the related model it ranges over and the forwarded paths passed to
`prefetch_related` (lines 216-220). -/
structure RelatedQuery where
  model_name : String
  forwarded : List String
  deriving DecidableEq, Repr

/-- `_make_prefetch_queries` (lines 211-221): for each prefetch-map entry
reuse or build the related query and extend it with the forwarded paths,
storing it back into `_prefetch_queries`.  `relation_models` stands for
`fields_map.get(field).type`, the related model of each relation field. -/
def _make_prefetch_queries (relation_models : List (String × String))
    (prefetch_map : PrefetchMap)
    (prefetch_queries : List (String × RelatedQuery)) :
    List (String × RelatedQuery) :=
  prefetch_map.foldl
    (fun pq e =>
      let rq :=
        match pq.lookup e.1 with
        | some r => r
        | none => { model_name := dict_get relation_models e.1 "", forwarded := [] }
      let rq2 :=
        if e.2.isEmpty then rq
        else { rq with forwarded := rq.forwarded ++ e.2 }
      match pq.lookup e.1 with
      | some _ => pq.map (fun p => if p.1 = e.1 then (p.1, rq2) else p)
      | none => pq ++ [(e.1, rq2)])
    prefetch_queries

/-- `_execute_prefetch_queries` (lines 231-236), generic over the instance
type and over `_do_prefetch` (the dynamic dispatch at lines 223-229): when
the instance list is truthy and either map is truthy, build the queries and
run each, summing the fetches each one issues; otherwise do nothing.
Returns the instance list, the `_prefetch_queries` state, and the number of
queries issued. -/
def _execute_prefetch_queries {Inst : Type}
    (relation_models : List (String × String))
    (do_prefetch : List Inst → String → RelatedQuery → List Inst × Nat)
    (prefetch_map : PrefetchMap)
    (prefetch_queries : List (String × RelatedQuery))
    (instance_list : List Inst) :
    List Inst × List (String × RelatedQuery) × Nat :=
  if !instance_list.isEmpty
      && (!prefetch_map.isEmpty || !prefetch_queries.isEmpty) then
    let pq := _make_prefetch_queries relation_models prefetch_map
      prefetch_queries
    let r := pq.foldl
      (fun acc e =>
        let step := do_prefetch acc.1 e.1 e.2
        (step.1, acc.2 + step.2))
      (instance_list, 0)
    (r.1, pq, r.2)
  else
    (instance_list, prefetch_queries, 0)

/-- `fetch_for_list` (lines 238-253): rebuild the prefetch map from the
dotted paths (raising before any query when a first segment is not a
declared relation field), then execute the prefetch queries.  Returns the
outcome paired with the number of database queries issued. -/
def fetch_for_list {Inst : Type} (meta : ModelMeta)
    (relation_models : List (String × String))
    (do_prefetch : List Inst → String → RelatedQuery → List Inst × Nat)
    (instance_list : List Inst) (args : List String) :
    Except Exc (List Inst) × Nat :=
  match build_prefetch_map meta.fetch_fields meta.table args [] with
  | .error e => (.error e, 0)
  | .ok pm =>
    let r := _execute_prefetch_queries relation_models do_prefetch pm []
      instance_list
    (.ok r.1, r.2.2)

/-! # Theorems -/

/-- C1: for every execution primitive wrapped by the reconnect policy, a
connection-level failure on the first attempt makes the wrapper close the
stale connection, attempt exactly one `create_connection(with_db=True)`,
and retry the original call exactly once; the outcome of the retried call is
what the caller observes — a second failure propagates, and a success is
returned transparently (also through the exception-translation layer
above). -/
theorem retry_connection_reconnects_once {α : Type} (s : CallScript α)
    (e : Exc) (h1 : s.first = .error e) (h2 : is_retry_exc e = true) :
    (retry_connection s).fst = s.second
    ∧ (retry_connection s).snd =
        [.funcCall, .lockAcquire, .closeConn, .createConn true,
         .lockRelease, .funcCall]
    ∧ (retry_connection s).snd.count (RCEvent.createConn true) = 1
    ∧ (retry_connection s).snd.count RCEvent.funcCall = 2
    ∧ (retry_connection s).snd.count RCEvent.closeConn = 1
    ∧ (∀ v : α, s.second = .ok v → (wrapped_primitive s).fst = .ok v) := by
  have hr : retry_connection s =
      (s.second,
        [.funcCall, .lockAcquire, .closeConn, .createConn true,
         .lockRelease, .funcCall]) := by
    simp [retry_connection, h1, h2]
  refine ⟨by rw [hr], by rw [hr], by rw [hr]; rfl, by rw [hr]; rfl,
    by rw [hr]; rfl, ?_⟩
  intro v hv
  simp [wrapped_primitive, hr, hv, translate_exceptions]

/-- Witness for C1 at a concrete script: first attempt raises
`pymysql.err.OperationalError`, the retry succeeds with `42`. -/
theorem retry_connection_reconnects_once_witness :
    (retry_connection
        { first := .error (.py .operationalError), reconnect := .ok (),
          second := .ok (42 : Nat) }).fst = Except.ok 42
    ∧ (retry_connection
        { first := .error (.py .operationalError), reconnect := .ok (),
          second := .ok (42 : Nat) }).snd =
        [.funcCall, .lockAcquire, .closeConn, .createConn true,
         .lockRelease, .funcCall] := by
  have h := retry_connection_reconnects_once
    { first := .error (.py .operationalError), reconnect := .ok (),
      second := .ok (42 : Nat) } (.py .operationalError) rfl rfl
  exact ⟨h.1, h.2.1⟩

/-- C10: the single `create_connection` attempt inside the reconnect
wrapper cannot surface its own failure: the outcome of the wrapper (result and
trace) is the same whatever the reconnect outcome is, and the result the
caller observes is exactly the outcome of the retried call. -/
theorem reconnect_failure_never_surfaces {α : Type}
    (first second : Except Exc α) (e : Exc) (r1 r2 : Except Exc Unit)
    (h1 : first = .error e) (h2 : is_retry_exc e = true) :
    retry_connection { first := first, reconnect := r1, second := second } =
      retry_connection { first := first, reconnect := r2, second := second }
    ∧ (retry_connection
        { first := first, reconnect := r1, second := second }).fst =
        second := by
  subst h1
  constructor
  · simp [retry_connection]
  · simp [retry_connection, h2]

/-- Witness for C10: the reconnect attempt fails with a connection error,
yet the wrapper returns the success of the retried call. -/
theorem reconnect_failure_never_surfaces_witness :
    (retry_connection
        { first := .error (.py .internalError),
          reconnect := .error (.dbConnectionError "down"),
          second := .ok (7 : Nat) }).fst = Except.ok 7 := by
  have h := reconnect_failure_never_surfaces
    (.error (.py .internalError)) (.ok (7 : Nat)) (.py .internalError)
    (.error (.dbConnectionError "down")) (.ok ()) rfl rfl
  exact h.2

/-- C7: the exception-translation wrapper maps driver-reported operational,
programming, data, internal and unsupported-feature failures to the
operational taxonomy error and driver-reported integrity failures to the
integrity taxonomy error, each carrying the original driver failure as
context, and applies no other translation: every other driver failure and
every taxonomy exception passes through unchanged, as does any successful
result. -/
theorem translate_exceptions_taxonomy {α : Type} :
    (∀ e : DriverExc, is_translate_operational e = true ↔
        (e = .operationalError ∨ e = .programmingError ∨ e = .dataError
          ∨ e = .internalError ∨ e = .notSupportedError))
    ∧ (∀ e : DriverExc, is_translate_operational e = true →
        translate_exceptions (α := α) (.error (.py e)) =
          .error (.operationalError (.driver e)))
    ∧ translate_exceptions (α := α) (.error (.py .integrityError)) =
        .error (.integrityError (.driver .integrityError))
    ∧ (∀ e : DriverExc, is_translate_operational e = false →
        ¬ e = .integrityError →
        translate_exceptions (α := α) (.error (.py e)) = .error (.py e))
    ∧ (∀ ctx, translate_exceptions (α := α)
        (.error (.operationalError ctx)) = .error (.operationalError ctx))
    ∧ (∀ ctx, translate_exceptions (α := α)
        (.error (.integrityError ctx)) = .error (.integrityError ctx))
    ∧ (∀ m, translate_exceptions (α := α)
        (.error (.transactionManagementError m)) =
        .error (.transactionManagementError m))
    ∧ (∀ m, translate_exceptions (α := α)
        (.error (.dbConnectionError m)) = .error (.dbConnectionError m))
    ∧ (∀ v : α, translate_exceptions (.ok v) = .ok v) := by
  refine ⟨?_, ?_, ?_, ?_, ?_, ?_, ?_, ?_, ?_⟩
  · intro e; cases e <;> simp [is_translate_operational]
  · intro e he; simp [translate_exceptions, he]
  · simp [translate_exceptions, is_translate_operational]
  · intro e he hne; simp [translate_exceptions, he, hne]
  · intro ctx; simp [translate_exceptions]
  · intro ctx; simp [translate_exceptions]
  · intro m; simp [translate_exceptions]
  · intro m; simp [translate_exceptions]
  · intro v; simp [translate_exceptions]

/-- Witness for C7: a data error is wrapped into the operational taxonomy
error and an interface error (absent from the translation tuple) passes
through untranslated. -/
theorem translate_exceptions_taxonomy_witness :
    translate_exceptions (α := Nat) (.error (.py .dataError)) =
      .error (.operationalError (.driver .dataError))
    ∧ translate_exceptions (α := Nat) (.error (.py .interfaceError)) =
      .error (.py .interfaceError) := by
  obtain ⟨-, h2, -, h4, -⟩ := translate_exceptions_taxonomy (α := Nat)
  exact ⟨h2 .dataError rfl, h4 .interfaceError rfl (by decide)⟩

/-! Helper lemmas about transaction scopes. -/

theorem runOp_finalized_true (w : TxWorld) (h : w.scope.finalized = true)
    (op : TxOp) :
    w.runOp op =
      (.error (.transactionManagementError "Transaction already finalised"),
       w) := by
  rcases op with db | db <;>
    simp [TxWorld.runOp, TxWorld.commit, TxWorld.rollback, h]

theorem runOp_snd_finalized (w : TxWorld) (op : TxOp) :
    (w.runOp op).snd.scope.finalized = true := by
  rcases op with db | db <;> rcases db with e | v <;>
    by_cases h : w.scope.finalized <;>
      simp [TxWorld.runOp, TxWorld.commit, TxWorld.rollback, h]

theorem countOk_nil : countOk [] = 0 := rfl

theorem countOk_ok (rs : List (Except Exc Unit)) :
    countOk (.ok () :: rs) = countOk rs + 1 := by
  simp [countOk]

theorem countOk_error (e : Exc) (rs : List (Except Exc Unit)) :
    countOk (.error e :: rs) = countOk rs := by
  simp [countOk]

theorem runOps_finalized (w : TxWorld) (h : w.scope.finalized = true) :
    ∀ ops : List TxOp,
      w.runOps ops =
        (List.replicate ops.length
          (.error (.transactionManagementError "Transaction already finalised")),
         w)
  | [] => by simp [TxWorld.runOps]
  | op :: rest => by
    simp [TxWorld.runOps, runOp_finalized_true w h op,
      runOps_finalized w h rest, List.replicate_succ]

theorem countOk_replicate_error (n : Nat) (e : Exc) :
    countOk (List.replicate n (.error e)) = 0 := by
  induction n with
  | zero => rfl
  | succ k ih => simpa [List.replicate_succ, countOk_error] using ih

theorem countOk_runOps_le_one (w : TxWorld) (ops : List TxOp) :
    countOk (w.runOps ops).fst ≤ 1 := by
  cases ops with
  | nil => simp [TxWorld.runOps, countOk_nil]
  | cons op rest =>
    have hfin := runOp_snd_finalized w op
    have hrest := runOps_finalized (w.runOp op).snd hfin rest
    rcases hop : (w.runOp op).fst with e | v
    · simp [TxWorld.runOps, hrest, hop, countOk_error,
        countOk_replicate_error]
    · cases v
      simp [TxWorld.runOps, hrest, hop, countOk_ok,
        countOk_replicate_error]

/-- C2: on an unfinalized scope, the first `commit()` (resp. `rollback()`)
succeeds, sets the finalized flag, issues the corresponding database
statement, and restores the current-transaction context of the connection name
to the previously recorded value; on a finalized scope any further
`commit()`/`rollback()` raises the transaction-management error and leaves
the world untouched, so every sequence of finalization calls on one scope
has at most one success. -/
theorem transaction_finalize_exactly_once (w : TxWorld)
    (hw : w.scope.finalized = false) :
    ((w.commit (.ok ())).fst = .ok ()
      ∧ (w.commit (.ok ())).snd =
          { scope := { finalized := true,
                       old_context_value := w.scope.old_context_value },
            current_context := w.scope.old_context_value,
            db_stmts := w.db_stmts ++ [.commitStmt] })
    ∧ ((w.rollback (.ok ())).fst = .ok ()
      ∧ (w.rollback (.ok ())).snd =
          { scope := { finalized := true,
                       old_context_value := w.scope.old_context_value },
            current_context := w.scope.old_context_value,
            db_stmts := w.db_stmts ++ [.rollbackStmt] })
    ∧ (∀ w2 : TxWorld, w2.scope.finalized = true → ∀ op : TxOp,
        w2.runOp op =
          (.error
            (.transactionManagementError "Transaction already finalised"),
           w2))
    ∧ (∀ ops : List TxOp, countOk (w.runOps ops).fst ≤ 1) := by
  refine ⟨⟨?_, ?_⟩, ⟨?_, ?_⟩, ?_, ?_⟩
  · simp [TxWorld.commit, hw]
  · simp [TxWorld.commit, hw]
  · simp [TxWorld.rollback, hw]
  · simp [TxWorld.rollback, hw]
  · exact fun w2 h2 op => runOp_finalized_true w2 h2 op
  · exact fun ops => countOk_runOps_le_one w ops

/-- Witness for C2: on a concrete unfinalized scope, the first commit
succeeds and a second commit on the resulting world raises the
transaction-management error. -/
theorem transaction_finalize_exactly_once_witness :
    (TxWorld.commit
        { scope := { finalized := false, old_context_value := some 3 },
          current_context := some 9, db_stmts := [] } (.ok ())).fst =
      .ok ()
    ∧ (TxWorld.commit
        (TxWorld.commit
          { scope := { finalized := false, old_context_value := some 3 },
            current_context := some 9, db_stmts := [] } (.ok ())).snd
        (.ok ())).fst =
      .error (.transactionManagementError "Transaction already finalised") := by
  have h := transaction_finalize_exactly_once
    { scope := { finalized := false, old_context_value := some 3 },
      current_context := some 9, db_stmts := [] } rfl
  refine ⟨h.1.1, ?_⟩
  have h2 := h.2.2.1
    (TxWorld.commit
      { scope := { finalized := false, old_context_value := some 3 },
        current_context := some 9, db_stmts := [] } (.ok ())).snd
    (by rw [h.1.2]) (.commitOp (.ok ()))
  have h3 : (TxWorld.commit
      (TxWorld.commit
        { scope := { finalized := false, old_context_value := some 3 },
          current_context := some 9, db_stmts := [] } (.ok ())).snd
      (.ok ())) =
      ((TxWorld.commit
        { scope := { finalized := false, old_context_value := some 3 },
          current_context := some 9, db_stmts := [] } (.ok ())).snd.runOp
        (.commitOp (.ok ()))) := rfl
  rw [h3, h2]

/-- C9: `commit`/`rollback` set the finalized flag before awaiting the
database statement, so when the driver call fails the error propagates,
the scope stays permanently finalized, the saved transaction context is
not restored, and every later finalization call raises the
transaction-management error. -/
theorem finalized_set_before_db_statement (w : TxWorld) (e : Exc)
    (hw : w.scope.finalized = false) :
    ((w.commit (.error e)).fst = .error e
      ∧ (w.commit (.error e)).snd.scope.finalized = true
      ∧ (w.commit (.error e)).snd.current_context = w.current_context
      ∧ (w.commit (.error e)).snd.db_stmts = w.db_stmts ++ [.commitStmt]
      ∧ ∀ op : TxOp, ((w.commit (.error e)).snd.runOp op).fst =
          .error (.transactionManagementError "Transaction already finalised"))
    ∧ ((w.rollback (.error e)).fst = .error e
      ∧ (w.rollback (.error e)).snd.scope.finalized = true
      ∧ (w.rollback (.error e)).snd.current_context = w.current_context
      ∧ (w.rollback (.error e)).snd.db_stmts = w.db_stmts ++ [.rollbackStmt]
      ∧ ∀ op : TxOp, ((w.rollback (.error e)).snd.runOp op).fst =
          .error
            (.transactionManagementError "Transaction already finalised")) := by
  have hc : (w.commit (.error e)).snd.scope.finalized = true := by
    simp [TxWorld.commit, hw]
  have hr : (w.rollback (.error e)).snd.scope.finalized = true := by
    simp [TxWorld.rollback, hw]
  refine ⟨⟨?_, hc, ?_, ?_, ?_⟩, ⟨?_, hr, ?_, ?_, ?_⟩⟩
  · simp [TxWorld.commit, hw]
  · simp [TxWorld.commit, hw]
  · simp [TxWorld.commit, hw]
  · intro op; rw [runOp_finalized_true _ hc op]
  · simp [TxWorld.rollback, hw]
  · simp [TxWorld.rollback, hw]
  · simp [TxWorld.rollback, hw]
  · intro op; rw [runOp_finalized_true _ hr op]

/-- Witness for C9: a failing driver commit on a concrete scope propagates
the driver error, leaves the context unrestored and the scope finalized. -/
theorem finalized_set_before_db_statement_witness :
    (TxWorld.commit
        { scope := { finalized := false, old_context_value := some 3 },
          current_context := some 9, db_stmts := [] }
        (.error (.py .operationalError))).fst =
      .error (.py .operationalError)
    ∧ (TxWorld.commit
        { scope := { finalized := false, old_context_value := some 3 },
          current_context := some 9, db_stmts := [] }
        (.error (.py .operationalError))).snd.current_context = some 9 := by
  have h := finalized_set_before_db_statement
    { scope := { finalized := false, old_context_value := some 3 },
      current_context := some 9, db_stmts := [] }
    (.py .operationalError) rfl
  exact ⟨h.1.1, h.1.2.2.1⟩

/-! Helper lemmas about the insert-plan cache. -/

theorem lookup_append_single {β : Type} (l : List (String × β)) (k : String)
    (v : β) (h : l.lookup k = none) : (l ++ [(k, v)]).lookup k = some v := by
  induction l with
  | nil => simp [List.lookup]
  | cons p rest ih =>
    rcases p with ⟨k2, v2⟩
    by_cases hk : k = k2
    · subst hk
      simp [List.lookup] at h
    · have hbeq : (k == k2) = false := by simpa using hk
      simp only [List.lookup, hbeq] at h ⊢
      exact ih h

theorem execute_insert_plan_hit (cn : String) (meta : ModelMeta)
    (c : InsertCache) (rc cols : List String) (q : String)
    (h : c.lookup (insert_cache_key cn meta) = some (rc, cols, q)) :
    execute_insert_plan cn meta c =
      { cache := c, built := false, regular_columns := rc,
        columns := cols, query := q } := by
  simp [execute_insert_plan, h]

theorem execute_insert_plan_lookup (cn : String) (meta : ModelMeta)
    (cache : InsertCache) :
    (execute_insert_plan cn meta cache).cache.lookup
        (insert_cache_key cn meta) =
      some ((execute_insert_plan cn meta cache).regular_columns,
        (execute_insert_plan cn meta cache).columns,
        (execute_insert_plan cn meta cache).query) := by
  cases h : cache.lookup (insert_cache_key cn meta) with
  | some v =>
    rcases v with ⟨rc, cols, q⟩
    simp [execute_insert_plan, h]
  | none =>
    simp [execute_insert_plan, h, lookup_append_single _ _ _ h]

theorem insert_run_hit (cn : String) (meta : ModelMeta) (c : InsertCache)
    (rc cols : List String) (q : String)
    (h : c.lookup (insert_cache_key cn meta) = some (rc, cols, q)) :
    ∀ n : Nat, insert_run cn meta n c = (c, 0, List.replicate n q)
  | 0 => by simp [insert_run]
  | n + 1 => by
    simp [insert_run, execute_insert_plan_hit cn meta c rc cols q h,
      insert_run_hit cn meta c rc cols q h n, List.replicate_succ]

/-- C3: `execute_insert` builds the column projection and renders the
insert statement at most once per (connection, table) cache entry: a
second call on the cache state a first call produced performs no build and
reuses the cached statement verbatim, and over any run of consecutive
inserts for the same key at most one build happens while every insert
executes the same statement text as the first. -/
theorem insert_plan_cache_idempotent (cn : String) (meta : ModelMeta)
    (cache : InsertCache) :
    (execute_insert_plan cn meta
        (execute_insert_plan cn meta cache).cache).built = false
    ∧ (execute_insert_plan cn meta
        (execute_insert_plan cn meta cache).cache).query =
        (execute_insert_plan cn meta cache).query
    ∧ (execute_insert_plan cn meta
        (execute_insert_plan cn meta cache).cache).cache =
        (execute_insert_plan cn meta cache).cache
    ∧ (∀ n : Nat, (insert_run cn meta n cache).2.1 ≤ 1)
    ∧ (∀ n : Nat, (insert_run cn meta n cache).2.2 =
        List.replicate n (execute_insert_plan cn meta cache).query) := by
  have h2 := execute_insert_plan_hit cn meta
    (execute_insert_plan cn meta cache).cache
    (execute_insert_plan cn meta cache).regular_columns
    (execute_insert_plan cn meta cache).columns
    (execute_insert_plan cn meta cache).query
    (execute_insert_plan_lookup cn meta cache)
  have hrun : ∀ n : Nat,
      insert_run cn meta n (execute_insert_plan cn meta cache).cache =
        ((execute_insert_plan cn meta cache).cache, 0,
          List.replicate n (execute_insert_plan cn meta cache).query) :=
    fun n => insert_run_hit cn meta _ _ _ _
      (execute_insert_plan_lookup cn meta cache) n
  refine ⟨by rw [h2], by rw [h2], by rw [h2], ?_, ?_⟩
  · intro n
    cases n with
    | zero => simp [insert_run]
    | succ k =>
      simp only [insert_run, hrun k]
      split <;> simp
  · intro n
    cases n with
    | zero => simp [insert_run]
    | succ k =>
      simp [insert_run, hrun k, List.replicate_succ]

/-! Helper lemmas about the reverse-prefetch grouping dict. -/

theorem dict_get_add_to_group (m : List (Int × List ChildRow)) (e : ChildRow)
    (k : Int) :
    dict_get (add_to_group m e) k [] =
      if e.rel = k then dict_get m k [] ++ [e] else dict_get m k [] := by
  induction m with
  | nil =>
    by_cases h : e.rel = k <;> simp [add_to_group, dict_get, h]
  | cons p rest ih =>
    rcases p with ⟨k2, g⟩
    by_cases h1 : k2 = e.rel
    · subst h1
      by_cases h2 : e.rel = k <;> simp [add_to_group, dict_get, h2]
    · by_cases h2 : k2 = k
      · subst h2
        have h3 : ¬ e.rel = k2 := fun hc => h1 hc.symm
        simp [add_to_group, dict_get, h1, h3]
      · simp [add_to_group, dict_get, h1, h2, ih]

theorem dict_get_foldl_add (entries : List ChildRow) :
    ∀ (m : List (Int × List ChildRow)) (k : Int),
      dict_get (entries.foldl add_to_group m) k [] =
        dict_get m k [] ++ entries.filter (fun c => c.rel == k) := by
  induction entries with
  | nil => intro m k; simp
  | cons e rest ih =>
    intro m k
    rw [List.foldl_cons, ih (add_to_group m e) k, dict_get_add_to_group]
    by_cases h : e.rel = k <;> simp [h, List.filter_cons]

theorem dict_get_related_object_map (entries : List ChildRow) (k : Int) :
    dict_get (related_object_map entries) k [] =
      entries.filter (fun c => c.rel == k) := by
  simpa [related_object_map, dict_get] using dict_get_foldl_add entries [] k

/-- C5: reverse-relation prefetch attaches to each source instance exactly
the fetched children whose foreign key equals the primary key of that instance
(in fetch order), and an empty list where none match, issuing one fetch; in
particular, for parent ids 1, 2, 3 and children (1,a), (1,b), (2,c) it
attaches [a,b] to parent 1, [c] to parent 2 and [] to parent 3. -/
theorem reverse_prefetch_grouping :
    (∀ (db : List ChildRow) (insts : List ParentInst),
      _prefetch_reverse_relation db insts =
        (insts.map (fun p =>
          { p with children := some (db.filter (fun c => c.rel == p.id)) }),
         1))
    ∧ _prefetch_reverse_relation
        [{ rel := 1, val := "a" }, { rel := 1, val := "b" },
         { rel := 2, val := "c" }]
        [{ id := 1, children := none }, { id := 2, children := none },
         { id := 3, children := none }] =
      ([{ id := 1, children := some
            [{ rel := 1, val := "a" }, { rel := 1, val := "b" }] },
        { id := 2, children := some [{ rel := 2, val := "c" }] },
        { id := 3, children := some [] }],
       1) := by
  have hmain : ∀ (db : List ChildRow) (insts : List ParentInst),
      _prefetch_reverse_relation db insts =
        (insts.map (fun p =>
          { p with children := some (db.filter (fun c => c.rel == p.id)) }),
         1) := by
    intro db insts
    unfold _prefetch_reverse_relation
    refine Prod.ext ?_ rfl
    apply List.map_congr_left
    intro p hp
    have hmem : p.id ∈ insts.map (fun i => i.id) :=
      List.mem_map_of_mem (fun i => i.id) hp
    have hcontains :
        (insts.map (fun i => i.id)).contains p.id = true := by
      simpa using hmem
    rw [dict_get_related_object_map, List.filter_filter]
    have hfc : ∀ c ∈ db,
        ((c.rel == p.id) &&
          (insts.map (fun i => i.id)).contains c.rel) = (c.rel == p.id) := by
      intro c _
      by_cases h : c.rel = p.id
      · rw [h, hcontains]; simp
      · simp [h]
    rw [List.filter_congr hfc]
  exact ⟨hmain, by rw [hmain]; rfl⟩

/-- C6 counterexample: with related table {5} and instances whose foreign
keys are null, 0 and 5, the code (a) does not leave the null-key
relation attribute of the null-key instance unset — it assigns it the null value — and
(b) does not collect the non-null foreign key 0 into the fetch set,
because collection tests Python truthiness, not non-nullness. -/
theorem direct_prefetch_null_fk_counterexample :
    ((_prefetch_direct_relation [5]
        [{ fk := none, rel := none }, { fk := some 0, rel := none },
         { fk := some 5, rel := none }]).fst.headD
        { fk := none, rel := none }).rel = some none
    ∧ ¬ (((_prefetch_direct_relation [5]
        [{ fk := none, rel := none }, { fk := some 0, rel := none },
         { fk := some 5, rel := none }]).fst.headD
        { fk := none, rel := none }).rel = none)
    ∧ related_objects_for_fetch
        [{ fk := none, rel := none }, { fk := some 0, rel := none },
         { fk := some 5, rel := none }] = [5]
    ∧ ¬ ((0 : Int) ∈ related_objects_for_fetch
        [{ fk := none, rel := none }, { fk := some 0, rel := none },
         { fk := some 5, rel := none }])
    ∧ some (0 : Int) ∈
        [{ fk := none, rel := none }, { fk := some 0, rel := none },
         { fk := some 5, rel := (none : Option (Option Int)) }].map
          DirectInst.fk := by
  decide

/-- C6 amended: direct-relation prefetch collects the truthy (non-null and
non-zero) foreign-key values, deduplicated; when that set is empty it
issues no fetch and assigns no attribute, and when it is non-empty it
issues exactly one fetch and assigns the relation attribute of every instance —
the matching related instance for a truthy key found in the related table,
and the null value for a null, zero, or unmatched key. -/
theorem direct_prefetch_amended (db : List Int) (insts : List DirectInst) :
    (∀ v : Int, v ∈ related_objects_for_fetch insts ↔
      ((∃ i ∈ insts, i.fk = some v) ∧ ¬ v = 0))
    ∧ (related_objects_for_fetch insts).Nodup
    ∧ (related_objects_for_fetch insts = [] →
        _prefetch_direct_relation db insts = (insts, 0))
    ∧ (¬ related_objects_for_fetch insts = [] →
        _prefetch_direct_relation db insts =
          (insts.map (fun i =>
            { i with rel := some (match i.fk with
                | none => none
                | some v => if ¬ v = 0 ∧ v ∈ db then some v else none) }),
           1)) := by
  have hmem : ∀ v : Int, v ∈ related_objects_for_fetch insts ↔
      ((∃ i ∈ insts, i.fk = some v) ∧ ¬ v = 0) := by
    intro v
    simp [related_objects_for_fetch, List.mem_filter, List.mem_filterMap]
  refine ⟨hmem, List.nodup_dedup _, ?_, ?_⟩
  · intro h
    simp [_prefetch_direct_relation, h]
  · intro h
    have hne : ¬ ((related_objects_for_fetch insts).isEmpty = true) := by
      simpa [List.isEmpty_iff] using h
    unfold _prefetch_direct_relation
    rw [if_neg hne]
    refine Prod.ext ?_ rfl
    apply List.map_congr_left
    intro i hi
    cases hfk : i.fk with
    | none => rfl
    | some v =>
      by_cases hv : v = 0
      · subst hv
        have h0 : ¬ ((0 : Int) ∈ related_objects_for_fetch insts) := by
          rw [hmem]; rintro ⟨-, h0⟩; exact h0 rfl
        have hc : ((db.filter
            (fun j => (related_objects_for_fetch insts).contains j)).contains
              (0 : Int)) = false := by
          rw [Bool.eq_false_iff]
          intro hcon
          have : (0 : Int) ∈ db.filter
              (fun j => (related_objects_for_fetch insts).contains j) := by
            simpa using hcon
          rw [List.mem_filter] at this
          exact h0 (by simpa using this.2)
        simp [hc]
        exact fun _ => h0
      · have hvin : v ∈ related_objects_for_fetch insts := by
          rw [hmem]; exact ⟨⟨i, hi, hfk⟩, hv⟩
        by_cases hdb : v ∈ db
        · have hin : v ∈ db.filter
              (fun j => (related_objects_for_fetch insts).contains j) :=
            List.mem_filter.2 ⟨hdb, by simpa using hvin⟩
          have hc : ((db.filter
              (fun j => (related_objects_for_fetch insts).contains j)).contains
                v) = true := by
            simpa using hin
          simp [hc, hv, hdb]
          exact hvin
        · have hc : ((db.filter
              (fun j => (related_objects_for_fetch insts).contains j)).contains
                v) = false := by
            rw [Bool.eq_false_iff]
            intro hcon
            have : v ∈ db.filter
                (fun j => (related_objects_for_fetch insts).contains j) := by
              simpa using hcon
            exact hdb (List.mem_filter.1 this).1
          simp [hc, hv, hdb]

/-- Witness for C6 amended: the empty-set branch issues no fetch, and the
non-empty branch assigns the matching related instance to a truthy key and
the null value to a null key. -/
theorem direct_prefetch_amended_witness :
    _prefetch_direct_relation [5] [{ fk := none, rel := none }] =
      ([{ fk := none, rel := none }], 0)
    ∧ _prefetch_direct_relation [5]
        [{ fk := some 5, rel := none }, { fk := none, rel := none }] =
      ([{ fk := some 5, rel := some (some 5) },
        { fk := none, rel := some none }], 1) := by
  have h1 := (direct_prefetch_amended [5]
    [{ fk := none, rel := none }]).2.2.1 (by decide)
  have h2 := (direct_prefetch_amended [5]
    [{ fk := some 5, rel := none }, { fk := none, rel := none }]).2.2.2
    (by decide)
  exact ⟨h1, by rw [h2]; decide⟩

/-! Helper lemmas about prefetch-map construction. -/

theorem dict_get_insert (m : PrefetchMap) (k g : String) :
    dict_get (prefetch_map_insert m k) g [] = dict_get m g [] := by
  induction m with
  | nil => by_cases h : k = g <;> simp [prefetch_map_insert, dict_get, h]
  | cons p rest ih =>
    rcases p with ⟨k2, s⟩
    by_cases h : k2 = k
    · simp [prefetch_map_insert, h]
    · simp only [prefetch_map_insert]
      rw [if_neg h]
      by_cases h2 : k2 = g <;> simp [dict_get, h2, ih]

theorem dict_get_step_same (m : PrefetchMap) (k v : String) :
    dict_get (prefetch_set_add (prefetch_map_insert m k) k v) k [] =
      (if (dict_get m k []).contains v then dict_get m k []
       else dict_get m k [] ++ [v]) := by
  induction m with
  | nil => simp [prefetch_map_insert, prefetch_set_add, dict_get]
  | cons p rest ih =>
    rcases p with ⟨k2, s⟩
    by_cases h : k2 = k
    · subst h
      simp [prefetch_map_insert, prefetch_set_add, dict_get]
    · simp [prefetch_map_insert, prefetch_set_add, dict_get, h, ih]

theorem dict_get_step_other (m : PrefetchMap) (k v g : String)
    (hg : ¬ g = k) :
    dict_get (prefetch_set_add (prefetch_map_insert m k) k v) g [] =
      dict_get m g [] := by
  have hkg : ¬ k = g := fun hc => hg hc.symm
  induction m with
  | nil => simp [prefetch_map_insert, prefetch_set_add, dict_get, hkg]
  | cons p rest ih =>
    rcases p with ⟨k2, s⟩
    by_cases h : k2 = k
    · subst h
      simp [prefetch_map_insert, prefetch_set_add, dict_get, hkg]
    · simp only [prefetch_map_insert]
      rw [if_neg h]
      simp only [prefetch_set_add]
      rw [if_neg h]
      by_cases h2 : k2 = g <;> simp [dict_get, h2, ih]

theorem mem_dict_get_step (m : PrefetchMap) (k v f s : String) :
    s ∈ dict_get (prefetch_set_add (prefetch_map_insert m k) k v) f [] ↔
      (s ∈ dict_get m f [] ∨ (k = f ∧ s = v)) := by
  by_cases hf : f = k
  · subst hf
    rw [dict_get_step_same]
    by_cases hc : (dict_get m f []).contains v
    · have hvm : v ∈ dict_get m f [] := by simpa using hc
      rw [if_pos hc]
      constructor
      · exact fun h => Or.inl h
      · rintro (h | ⟨-, rfl⟩)
        · exact h
        · exact hvm
    · rw [if_neg hc]
      simp [List.mem_append]
  · rw [dict_get_step_other m k v f hf]
    constructor
    · exact fun h => Or.inl h
    · rintro (h | ⟨rfl, -⟩)
      · exact h
      · exact absurd rfl hf

theorem nodup_dict_get_step (m : PrefetchMap) (k v : String)
    (h : ∀ f, (dict_get m f []).Nodup) :
    ∀ f, (dict_get (prefetch_set_add (prefetch_map_insert m k) k v) f []).Nodup := by
  intro f
  by_cases hf : f = k
  · subst hf
    rw [dict_get_step_same]
    by_cases hc : (dict_get m f []).contains v
    · rw [if_pos hc]; exact h f
    · rw [if_neg hc]
      have hvm : ¬ v ∈ dict_get m f [] := by simpa using hc
      exact List.Nodup.append (h f) (List.nodup_singleton v)
        (fun x hx hxv => hvm ((List.mem_singleton.1 hxv) ▸ hx))
  · rw [dict_get_step_other m k v f hf]
    exact h f

theorem build_prefetch_map_ok (ff : List String) (table : String) :
    ∀ (args : List String) (m : PrefetchMap),
      (∀ a ∈ args, ff.contains ((split_path a).headD "") = true) →
      ∃ pm, build_prefetch_map ff table args m = .ok pm
        ∧ (∀ f s, s ∈ dict_get pm f [] ↔
            (s ∈ dict_get m f [] ∨ ∃ a ∈ args,
              (split_path a).headD "" = f
                ∧ join_path (split_path a).tail = s ∧ ¬ s = ""))
        ∧ ((∀ f, (dict_get m f []).Nodup) →
            ∀ f, (dict_get pm f []).Nodup) := by
  intro args
  induction args with
  | nil =>
    intro m _
    exact ⟨m, rfl, by simp, fun h => h⟩
  | cons a rest ih =>
    intro m hvalid
    have ha : ff.contains ((split_path a).headD "") = true :=
      hvalid a (List.mem_cons_self a rest)
    by_cases hfwd : join_path (split_path a).tail = ""
    · obtain ⟨pm, hpm, hchar, hnodup⟩ :=
        ih (prefetch_map_insert m ((split_path a).headD ""))
          (fun x hx => hvalid x (List.mem_cons_of_mem a hx))
      refine ⟨pm, ?_, ?_, ?_⟩
      · simp only [build_prefetch_map, ha, if_true, hfwd]
        simpa using hpm
      · intro f s
        rw [hchar f s, dict_get_insert]
        constructor
        · rintro (h | ⟨x, hx, hxf⟩)
          · exact Or.inl h
          · exact Or.inr ⟨x, List.mem_cons_of_mem a hx, hxf⟩
        · rintro (h | ⟨x, hx, h1, h2, h3⟩)
          · exact Or.inl h
          · rcases List.mem_cons.1 hx with rfl | hx2
            · exact absurd (h2.symm.trans hfwd) h3
            · exact Or.inr ⟨x, hx2, h1, h2, h3⟩
      · intro hm
        exact hnodup (fun f2 => by rw [dict_get_insert]; exact hm f2)
    · obtain ⟨pm, hpm, hchar, hnodup⟩ :=
        ih (prefetch_set_add
            (prefetch_map_insert m ((split_path a).headD ""))
            ((split_path a).headD "") (join_path (split_path a).tail))
          (fun x hx => hvalid x (List.mem_cons_of_mem a hx))
      refine ⟨pm, ?_, ?_, ?_⟩
      · simp only [build_prefetch_map, ha, if_true]
        rw [if_pos hfwd]
        exact hpm
      · intro f s
        rw [hchar f s, mem_dict_get_step]
        constructor
        · rintro ((h | ⟨hk, rfl⟩) | ⟨x, hx, hxf⟩)
          · exact Or.inl h
          · exact Or.inr ⟨a, List.mem_cons_self a rest, hk, rfl, hfwd⟩
          · exact Or.inr ⟨x, List.mem_cons_of_mem a hx, hxf⟩
        · rintro (h | ⟨x, hx, h1, h2, h3⟩)
          · exact Or.inl (Or.inl h)
          · rcases List.mem_cons.1 hx with rfl | hx2
            · exact Or.inl (Or.inr ⟨h1, h2.symm⟩)
            · exact Or.inr ⟨x, hx2, h1, h2, h3⟩
      · intro hm
        exact hnodup (nodup_dict_get_step m _ _ hm)

theorem build_prefetch_map_err (ff : List String) (table : String) :
    ∀ (args : List String) (m : PrefetchMap),
      (∃ a ∈ args, ff.contains ((split_path a).headD "") = false) →
      ∃ bad, ff.contains bad = false
        ∧ (∃ a ∈ args, (split_path a).headD "" = bad)
        ∧ build_prefetch_map ff table args m =
            .error (.operationalError (.message
              ("relation " ++ bad ++ " for " ++ table ++ " not found"))) := by
  intro args
  induction args with
  | nil => intro m h; simp at h
  | cons a rest ih =>
    intro m h
    by_cases ha : ff.contains ((split_path a).headD "") = true
    · have hrest : ∃ x ∈ rest,
          ff.contains ((split_path x).headD "") = false := by
        rcases h with ⟨x, hx, hxf⟩
        rcases List.mem_cons.1 hx with rfl | hx2
        · exact absurd (ha.symm.trans hxf) (by decide)
        · exact ⟨x, hx2, hxf⟩
      by_cases hfwd : join_path (split_path a).tail = ""
      · obtain ⟨bad, h1, ⟨x, hx2, hx3⟩, h3⟩ :=
          ih (prefetch_map_insert m ((split_path a).headD "")) hrest
        refine ⟨bad, h1, ⟨x, List.mem_cons_of_mem a hx2, hx3⟩, ?_⟩
        simp only [build_prefetch_map, ha, if_true, hfwd]
        simpa using h3
      · obtain ⟨bad, h1, ⟨x, hx2, hx3⟩, h3⟩ :=
          ih (prefetch_set_add
              (prefetch_map_insert m ((split_path a).headD ""))
              ((split_path a).headD "") (join_path (split_path a).tail))
            hrest
        refine ⟨bad, h1, ⟨x, List.mem_cons_of_mem a hx2, hx3⟩, ?_⟩
        simp only [build_prefetch_map, ha, if_true]
        rw [if_pos hfwd]
        exact h3
    · have ha2 : ff.contains ((split_path a).headD "") = false := by
        cases hb : ff.contains ((split_path a).headD "") with
        | false => rfl
        | true => exact absurd hb ha
      refine ⟨(split_path a).headD "", ha2,
        ⟨a, List.mem_cons_self a rest, rfl⟩, ?_⟩
      simp only [build_prefetch_map, ha2]
      simp

/-- C4: `fetch_for_list` validates the first segment of each dotted path
against the declared relation fields of the model — when every one is declared, the
prefetch map holds, for each first-level field, exactly the deduplicated
set of non-empty forwarded suffixes of the paths that start with it; when
the first segment of some path is undeclared, the call returns the operational
error naming that segment and the table of the model, with zero database
queries issued. -/
theorem fetch_for_list_validates_and_merges {Inst : Type} (meta : ModelMeta)
    (rm : List (String × String))
    (dp : List Inst → String → RelatedQuery → List Inst × Nat)
    (insts : List Inst) (args : List String) :
    ((∀ a ∈ args,
        meta.fetch_fields.contains ((split_path a).headD "") = true) →
      ∃ pm, build_prefetch_map meta.fetch_fields meta.table args [] = .ok pm
        ∧ (∀ f s, s ∈ dict_get pm f [] ↔
            ∃ a ∈ args, (split_path a).headD "" = f
              ∧ join_path (split_path a).tail = s ∧ ¬ s = "")
        ∧ (∀ f, (dict_get pm f []).Nodup))
    ∧ ((∃ a ∈ args,
        meta.fetch_fields.contains ((split_path a).headD "") = false) →
      ∃ bad, meta.fetch_fields.contains bad = false
        ∧ (∃ a ∈ args, (split_path a).headD "" = bad)
        ∧ fetch_for_list meta rm dp insts args =
            (.error (.operationalError (.message
              ("relation " ++ bad ++ " for " ++ meta.table ++ " not found"))),
             0)) := by
  constructor
  · intro hvalid
    obtain ⟨pm, hpm, hchar, hnodup⟩ :=
      build_prefetch_map_ok meta.fetch_fields meta.table args [] hvalid
    refine ⟨pm, hpm, ?_, ?_⟩
    · intro f s
      rw [hchar f s]
      simp [dict_get]
    · exact hnodup (fun f => by simp [dict_get])
  · intro hinv
    obtain ⟨bad, h1, h2, h3⟩ :=
      build_prefetch_map_err meta.fetch_fields meta.table args [] hinv
    refine ⟨bad, h1, h2, ?_⟩
    simp [fetch_for_list, h3]

/-- Witness for C4: three valid paths over relation fields `tournament`
and `participants` build a deduplicated prefetch map, and the single path
`bogus__x` makes the call fail with zero queries. -/
theorem fetch_for_list_validates_and_merges_witness :
    (∃ pm, build_prefetch_map ["tournament", "participants"] "event"
        ["tournament", "participants__team__players", "participants__team"]
        [] = .ok pm
      ∧ (∀ f s, s ∈ dict_get pm f [] ↔
          ∃ a ∈ ["tournament", "participants__team__players",
                 "participants__team"],
            (split_path a).headD "" = f
              ∧ join_path (split_path a).tail = s ∧ ¬ s = "")
      ∧ (∀ f, (dict_get pm f []).Nodup))
    ∧ (∃ bad, (["tournament", "participants"] : List String).contains bad
          = false
        ∧ (∃ a ∈ ["bogus__x"], (split_path a).headD "" = bad)
        ∧ fetch_for_list
            { table := "event", fields_db_projection := [],
              fields_map := [], fetch_fields := ["tournament", "participants"] }
            [] (fun (l : List Nat) _ _ => (l, 0)) [] ["bogus__x"] =
          (.error (.operationalError (.message
            ("relation " ++ bad ++ " for " ++ "event" ++ " not found"))),
           0)) := by
  constructor
  · exact (fetch_for_list_validates_and_merges
      { table := "event", fields_db_projection := [], fields_map := [],
        fetch_fields := ["tournament", "participants"] }
      [] (fun (l : List Nat) _ _ => (l, 0)) []
      ["tournament", "participants__team__players", "participants__team"]).1
      (by decide)
  · exact (fetch_for_list_validates_and_merges
      { table := "event", fields_db_projection := [], fields_map := [],
        fetch_fields := ["tournament", "participants"] }
      [] (fun (l : List Nat) _ _ => (l, 0)) [] ["bogus__x"]).2
      (by decide)

/-- C8: with an empty instance list, `_execute_prefetch_queries` is a
no-op — it runs no per-relation prefetch, issues zero queries and leaves
the stored query state unchanged, whatever the per-relation behavior is —
and `fetch_for_list` on an empty list issues zero queries on valid paths,
yet still raises the operational error for an unknown relation path. -/
theorem empty_instance_list_noop {Inst : Type}
    (rm : List (String × String))
    (dp : List Inst → String → RelatedQuery → List Inst × Nat)
    (pm : PrefetchMap) (pq : List (String × RelatedQuery))
    (meta : ModelMeta) (args : List String) :
    _execute_prefetch_queries rm dp pm pq ([] : List Inst) = ([], pq, 0)
    ∧ ((∀ a ∈ args,
          meta.fetch_fields.contains ((split_path a).headD "") = true) →
        fetch_for_list meta rm dp ([] : List Inst) args = (.ok [], 0))
    ∧ ((∃ a ∈ args,
          meta.fetch_fields.contains ((split_path a).headD "") = false) →
        ∃ bad, fetch_for_list meta rm dp ([] : List Inst) args =
          (.error (.operationalError (.message
            ("relation " ++ bad ++ " for " ++ meta.table ++ " not found"))),
           0)) := by
  refine ⟨?_, ?_, ?_⟩
  · simp [_execute_prefetch_queries]
  · intro hvalid
    obtain ⟨pm2, hpm2, -, -⟩ :=
      build_prefetch_map_ok meta.fetch_fields meta.table args [] hvalid
    simp [fetch_for_list, hpm2, _execute_prefetch_queries]
  · intro hinv
    obtain ⟨bad, -, -, h3⟩ :=
      build_prefetch_map_err meta.fetch_fields meta.table args [] hinv
    exact ⟨bad, by simp [fetch_for_list, h3]⟩

/-- Witness for C8: concrete no-op on an empty instance list, and the
unknown-relation error raised even with no instances. -/
theorem empty_instance_list_noop_witness :
    _execute_prefetch_queries [("tournament", "Tournament")]
      (fun (l : List Nat) _ _ => (l, 5)) [("tournament", [])]
      [("other", { model_name := "Other", forwarded := [] })]
      ([] : List Nat) =
      ([], [("other", { model_name := "Other", forwarded := [] })], 0)
    ∧ fetch_for_list
        { table := "event", fields_db_projection := [], fields_map := [],
          fetch_fields := ["tournament", "participants"] }
        [("tournament", "Tournament")] (fun (l : List Nat) _ _ => (l, 5))
        ([] : List Nat) ["tournament"] = (.ok [], 0) := by
  constructor
  · exact (empty_instance_list_noop [("tournament", "Tournament")]
      (fun (l : List Nat) _ _ => (l, 5)) [("tournament", [])]
      [("other", { model_name := "Other", forwarded := [] })]
      { table := "event", fields_db_projection := [], fields_map := [],
        fetch_fields := ["tournament", "participants"] } ["tournament"]).1
  · exact (empty_instance_list_noop [("tournament", "Tournament")]
      (fun (l : List Nat) _ _ => (l, 5)) [("tournament", [])]
      [("other", { model_name := "Other", forwarded := [] })]
      { table := "event", fields_db_projection := [], fields_map := [],
        fetch_fields := ["tournament", "participants"] }
      ["tournament"]).2.1 (by decide)

end Tortoise
